import Mathlib

/-!
Shallow embedding of `enhanced_force_feedback_minimal.c`, a minimal
DirectInput force-feedback driver. External, effectful calls
(CoInitialize, DirectInput8Create, EnumDevices, SetCooperativeLevel,
SetDataFormat, Acquire, CreateEffect, Start, GetTickCount) are modelled
by an environment that fixes the outcome of each call; the program then
becomes a pure function from the environment to an exit code, a trace of
observable events, and the final values of the global handles
`g_pDI`, `g_pJoystick`, `g_pEffect`.
-/

/-- DWORD modulus: GetTickCount and DWORD arithmetic are 32-bit unsigned. -/
def dword : Nat := 4294967296

/-- Unsigned 32-bit subtraction `a - b` for `a b < dword`,
as in the C guard `currentTime - lastSwitchTime`. -/
def dwordSub (a b : Nat) : Nat := (a + dword - b) % dword

/-- DI_FFNOMINALMAX, the platform nominal force maximum. -/
def DI_FFNOMINALMAX : Nat := 10000

/-- The fields of the DIEFFECT / DICONSTANTFORCE pair that the program fills
in (`rglDirection[0]`, `rglDirection[1]`, the constant-force magnitude,
`dwDuration`, `dwGain`, `cAxes`). -/
structure DIEffectParams where
  direction : Int
  dirY : Int
  magnitude : Nat
  duration_us : Nat
  gain : Nat
  cAxes : Nat
deriving DecidableEq

/-- Observable events of a run: effect lifecycle steps inside the loop,
the post-loop stop, the CleanupAll steps, and the no-feedback print. -/
inductive Event where
  | effectRelease
  | effectCreate (t : Nat) (p : DIEffectParams)
  | createFailed
  | effectStart
  | startFailed
  | effectStop
  | cleanupEffectRelease
  | cleanupUnacquire
  | cleanupDeviceRelease
  | cleanupContextRelease
  | cleanupComplete
  | printNoFeedback
deriving DecidableEq

/-- The three global handles: `g_pEffect` (with the parameters it was
created from), `g_pJoystick`, `g_pDI` (non-null = true). -/
structure Globals where
  gEffect : Option DIEffectParams
  gJoystick : Bool
  gDI : Bool
deriving DecidableEq

/-- All globals start as NULL. -/
def initGlobals : Globals := ⟨none, false, false⟩

/-- `CleanupAll`: releases each non-null handle (effect; then unacquire and
release the device; then the context), nulls them all, prints
"Cleanup complete". -/
def CleanupAll (g : Globals) : Globals × List Event :=
  let e1 : List Event := if g.gEffect.isSome then [Event.cleanupEffectRelease] else []
  let e2 : List Event := if g.gJoystick then [Event.cleanupUnacquire, Event.cleanupDeviceRelease] else []
  let e3 : List Event := if g.gDI then [Event.cleanupContextRelease] else []
  (initGlobals, e1 ++ e2 ++ e3 ++ [Event.cleanupComplete])

/-- Outcomes of the external calls made by `InitializeDirectInput`:
DirectInput8Create, the EnumDevices call itself, CreateDevice for each
enumerated candidate (the callback stops at the first success),
SetCooperativeLevel, SetDataFormat, Acquire. -/
structure InitEnv where
  diCreateOk : Bool
  enumCallOk : Bool
  devices : List Bool
  coopOk : Bool
  dataFmtOk : Bool
  acquireOk : Bool
deriving DecidableEq

/-- `InitializeDirectInput`: create the DirectInput object, enumerate
force-feedback devices (binding the first candidate whose CreateDevice
succeeds), set cooperative level, set data format, acquire. Returns
whether it succeeded, together with the updated globals. -/
def InitializeDirectInput (e : InitEnv) (g : Globals) : Bool × Globals :=
  if e.diCreateOk then
    let bound := e.devices.contains true
    let g2 : Globals := { g with gDI := true, gJoystick := bound }
    if e.enumCallOk && bound then
      if e.coopOk then
        if e.dataFmtOk then
          if e.acquireOk then (true, g2)
          else (false, g2)
        else (false, g2)
      else (false, g2)
    else (false, g2)
  else (false, g)

/-- The switch-statement lookup in `ApplyGentleOscillation`:
category to (switchInterval, strengthMultiplier). The multiplier in the
C code is the float 1.0 or 0.0; both are exactly representable, so it is
carried as a Nat. -/
def oscParamsFor (ft : Int) : Nat × Nat :=
  if ft = 1 then (25, 1)
  else if ft = 2 then (25, 1)
  else (0, 0)

/-- Building the DIEFFECT: magnitude DI_FFNOMINALMAX * FORCE_STRENGTH *
strengthMultiplier, duration switchInterval * 1000 microseconds, gain
DI_FFNOMINALMAX, two axes, direction vector (d, 0). -/
def mkEffect (si mult : Nat) (d : Int) : DIEffectParams :=
  ⟨d, 0, DI_FFNOMINALMAX * 1 * mult, si * 1000, DI_FFNOMINALMAX, 2⟩

/-- Loop state of `ApplyGentleOscillation`: the global `g_pEffect`, the
`direction` variable, `lastSwitchTime`, and the index of the next
direction switch (used to look up the outcome of its CreateEffect and
Start calls in the environment). -/
structure OscSt where
  gEffect : Option DIEffectParams
  direction : Int
  lastSwitch : Nat
  nSw : Nat
deriving DecidableEq

/-- Result of the polling loop: the events it emitted, the final loop
state, and whether it aborted via the early `return` on CreateEffect
failure. -/
structure LoopOut where
  events : List Event
  st : OscSt
  aborted : Bool
deriving DecidableEq

/-- Events of the release-existing-effect step. -/
def relEvents (st : OscSt) : List Event :=
  if st.gEffect.isSome then [Event.effectRelease] else []

/-- Events of the Start call: started, or failure logged (non-fatal). -/
def startEvents (sOk : List Bool) (n : Nat) : List Event :=
  if sOk.getD n true then [Event.effectStart] else [Event.startFailed]

/-- The polling loop of `ApplyGentleOscillation`. `ticks` is the sequence
of GetTickCount readings, one per iteration; the loop exits when a
reading reaches `endTime` (or when the supplied readings run out). On a
direction switch it flips `direction`, releases any existing effect,
creates a new one (aborting the whole call on failure) and starts it
(logging failure and continuing). -/
def oscLoop (si mult endTime : Nat) (cOk sOk : List Bool) :
    List Nat → OscSt → LoopOut
  | [], st => ⟨[], st, false⟩
  | t :: ts, st =>
    let ct := t % dword
    if ct < endTime then
      if dwordSub ct st.lastSwitch > si then
        if cOk.getD st.nSw true then
          let p := mkEffect si mult (-st.direction)
          let r := oscLoop si mult endTime cOk sOk ts ⟨some p, -st.direction, ct, st.nSw + 1⟩
          ⟨relEvents st ++ Event.effectCreate ct p :: (startEvents sOk st.nSw ++ r.events),
            r.st, r.aborted⟩
        else
          ⟨relEvents st ++ [Event.createFailed], ⟨none, -st.direction, ct, st.nSw + 1⟩, true⟩
      else
        oscLoop si mult endTime cOk sOk ts st
    else ⟨[], st, false⟩

/-- Result of `ApplyGentleOscillation`: its events and the final
`g_pEffect`. -/
structure OscOut where
  events : List Event
  gEffect : Option DIEffectParams
deriving DecidableEq

/-- `ApplyGentleOscillation`: look up the parameters for the category, run
the polling loop for OSCILLATION_DURATION = 300 ms, then stop the active
effect if any — unless the loop aborted early (the early `return` skips
the stop). -/
def ApplyGentleOscillation (ft : Int) (startTime : Nat) (ticks : List Nat)
    (cOk sOk : List Bool) (gIn : Option DIEffectParams) : OscOut :=
  let si := (oscParamsFor ft).1
  let mult := (oscParamsFor ft).2
  let endTime := (startTime % dword + 300) % dword
  let r := oscLoop si mult endTime cOk sOk ticks ⟨gIn, 1, startTime % dword, 0⟩
  if r.aborted then ⟨r.events, r.st.gEffect⟩
  else if r.st.gEffect.isSome then ⟨r.events ++ [Event.effectStop], r.st.gEffect⟩
  else ⟨r.events, r.st.gEffect⟩

/-- Command-line handling in `main`: feedbackType defaults to
FEEDBACK_NONE = 0; with an argument, atoi is applied and any value
outside 0..2 is reset to 0. -/
def resolveCategory : Option Int → Int
  | none => 0
  | some n => if n < 0 ∨ n > 2 then 0 else n

/-- Full environment of one run of `main`: the atoi result of the argument
(if any), the CoInitialize outcome, the `InitializeDirectInput` call
outcomes, the loop start time, the GetTickCount readings, and the
per-switch CreateEffect / Start outcomes. -/
structure MainEnv where
  argvArg : Option Int
  coInitOk : Bool
  init : InitEnv
  startTime : Nat
  ticks : List Nat
  createOk : List Bool
  startOk : List Bool
deriving DecidableEq

/-- Result of a run of `main`: the process exit code, the event trace, and
the final globals. -/
structure MainResult where
  exitCode : Nat
  events : List Event
  globals : Globals
deriving DecidableEq

/-- `main`: parse the category; CoInitialize (on failure return 1 with no
cleanup); InitializeDirectInput (on failure CleanupAll and return 1);
then either run the oscillation for a non-NONE category or print
"No feedback requested"; CleanupAll; return 0. -/
def mainRun (env : MainEnv) : MainResult :=
  let ft := resolveCategory env.argvArg
  if env.coInitOk then
    let r := InitializeDirectInput env.init initGlobals
    if r.1 then
      if ft = 0 then
        let c := CleanupAll r.2
        ⟨0, Event.printNoFeedback :: c.2, c.1⟩
      else
        let osc := ApplyGentleOscillation ft env.startTime env.ticks env.createOk env.startOk r.2.gEffect
        let c := CleanupAll { r.2 with gEffect := osc.gEffect }
        ⟨0, osc.events ++ c.2, c.1⟩
    else
      let c := CleanupAll r.2
      ⟨1, c.2, c.1⟩
  else ⟨1, [], initGlobals⟩

/-! ### Trace predicates used to state the claims -/

/-- Number of occurrences of an event in a trace. -/
def countEv (e : Event) : List Event → Nat
  | [] => 0
  | x :: xs => (if x = e then 1 else 0) + countEv e xs

/-- Extract the (time, parameters) of an effect-creation event. -/
def createInfo : Event → Option (Nat × DIEffectParams)
  | Event.effectCreate t p => some (t, p)
  | _ => none

/-- The effects submitted to the device in a trace, in order, with the
tick at which each was created. -/
def createdEffects (l : List Event) : List (Nat × DIEffectParams) :=
  l.filterMap createInfo

/-- The list alternates in sign, starting with `x`. -/
def alternatingFrom : Int → List Int → Bool
  | _, [] => true
  | x, y :: ys => (y == x) && alternatingFrom (-x) ys

/-- Each time exceeds its predecessor (starting from `prev`) by more than
`si`, in DWORD arithmetic. -/
def spacedBy (si : Nat) : Nat → List Nat → Bool
  | _, [] => true
  | prev, t :: ts => decide (dwordSub t prev > si) && spacedBy si t ts

/-- Replay a trace, tracking whether an effect instance is live: `false`
exactly when some creation happens while another instance is live. -/
def noDoubleCreate : Bool → List Event → Bool
  | _, [] => true
  | live, Event.effectCreate _ _ :: xs => !live && noDoubleCreate true xs
  | _, Event.effectRelease :: xs => noDoubleCreate false xs
  | _, Event.cleanupEffectRelease :: xs => noDoubleCreate false xs
  | live, _ :: xs => noDoubleCreate live xs

/-- The part of a trace strictly after the first creation failure. -/
def afterCreateFailed : List Event → List Event
  | [] => []
  | Event.createFailed :: xs => xs
  | _ :: xs => afterCreateFailed xs

/-- Events emitted from inside the polling loop. -/
def isLoopEvent : Event → Bool
  | Event.effectRelease => true
  | Event.effectCreate _ _ => true
  | Event.createFailed => true
  | Event.effectStart => true
  | Event.startFailed => true
  | _ => false

/-- Events emitted by `CleanupAll`. -/
def isCleanupEvent : Event → Bool
  | Event.cleanupEffectRelease => true
  | Event.cleanupUnacquire => true
  | Event.cleanupDeviceRelease => true
  | Event.cleanupContextRelease => true
  | Event.cleanupComplete => true
  | _ => false

/-- An invalid or missing command-line category input: no argument, or an
integer outside 0..2. -/
def invalidArg : Option Int → Bool
  | none => true
  | some n => decide (n < 0) || decide (n > 2)

/-- Erase the playback-start events (`effectStart` / `startFailed`) from a
trace, keeping everything else. -/
def eraseStartEvents : List Event → List Event
  | [] => []
  | Event.effectStart :: xs => eraseStartEvents xs
  | Event.startFailed :: xs => eraseStartEvents xs
  | x :: xs => x :: eraseStartEvents xs

/-! ### Helper lemmas about the trace predicates -/

theorem countEv_append (e : Event) (l1 l2 : List Event) :
    countEv e (l1 ++ l2) = countEv e l1 + countEv e l2 := by
  induction l1 with
  | nil => simp [countEv]
  | cons x xs ih => simp [countEv, ih]; omega

theorem countEv_eq_zero (e : Event) (l : List Event) :
    e ∉ l → countEv e l = 0 := by
  induction l with
  | nil => intro _; rfl
  | cons x xs ih =>
    intro h
    simp only [List.mem_cons, not_or] at h
    have hx : ¬x = e := fun hx => h.1 hx.symm
    simp [countEv, ih h.2, hx]

theorem createdEffects_append (l1 l2 : List Event) :
    createdEffects (l1 ++ l2) = createdEffects l1 ++ createdEffects l2 := by
  simp [createdEffects, List.filterMap_append]

theorem eraseStartEvents_append (l1 l2 : List Event) :
    eraseStartEvents (l1 ++ l2) = eraseStartEvents l1 ++ eraseStartEvents l2 := by
  induction l1 with
  | nil => rfl
  | cons x xs ih => cases x <;> simp [eraseStartEvents, ih]

theorem noDoubleCreate_append_stop (b : Bool) (l : List Event) :
    noDoubleCreate b (l ++ [Event.effectStop]) = noDoubleCreate b l := by
  induction l generalizing b with
  | nil => rfl
  | cons x xs ih => cases x <;> simp [noDoubleCreate, ih]

theorem afterCreateFailed_append (l1 l2 : List Event)
    (h : Event.createFailed ∉ l1) :
    afterCreateFailed (l1 ++ Event.createFailed :: l2) = l2 := by
  induction l1 with
  | nil => rfl
  | cons x xs ih =>
    simp only [List.mem_cons, not_or] at h
    cases x
    case createFailed => exact absurd rfl h.1
    all_goals simp [afterCreateFailed, ih h.2]

theorem relEvents_all_loop (st : OscSt) :
    (relEvents st).all isLoopEvent = true := by
  unfold relEvents; split <;> simp [isLoopEvent]

theorem startEvents_all_loop (sOk : List Bool) (n : Nat) :
    (startEvents sOk n).all isLoopEvent = true := by
  unfold startEvents; split <;> simp [isLoopEvent]

theorem createdEffects_relEvents (st : OscSt) :
    createdEffects (relEvents st) = [] := by
  unfold relEvents; split <;> simp [createdEffects, createInfo]

theorem createdEffects_startEvents (sOk : List Bool) (n : Nat) :
    createdEffects (startEvents sOk n) = [] := by
  unfold startEvents; split <;> simp [createdEffects, createInfo]

theorem cf_not_mem_relEvents (st : OscSt) :
    Event.createFailed ∉ relEvents st := by
  unfold relEvents; split <;> simp

theorem cf_not_mem_startEvents (sOk : List Bool) (n : Nat) :
    Event.createFailed ∉ startEvents sOk n := by
  unfold startEvents; split <;> simp

theorem eraseStartEvents_relEvents (st : OscSt) :
    eraseStartEvents (relEvents st) = relEvents st := by
  unfold relEvents; split <;> rfl

theorem eraseStartEvents_startEvents (sOk : List Bool) (n : Nat) :
    eraseStartEvents (startEvents sOk n) = [] := by
  unfold startEvents; split <;> rfl

theorem cleanup_globals (g : Globals) : (CleanupAll g).1 = initGlobals := rfl

theorem cleanup_all_cleanupEvent (g : Globals) :
    ((CleanupAll g).2).all isCleanupEvent = true := by
  unfold CleanupAll
  split <;> split <;> split <;> simp [isCleanupEvent]

theorem cleanup_count_complete (g : Globals) :
    countEv Event.cleanupComplete (CleanupAll g).2 = 1 := by
  unfold CleanupAll
  split <;> split <;> split <;> simp [countEv]

theorem cleanup_count_effectRelease (g : Globals) :
    countEv Event.cleanupEffectRelease (CleanupAll g).2 =
      if g.gEffect.isSome then 1 else 0 := by
  unfold CleanupAll
  split <;> split <;> split <;> simp_all [countEv]

theorem cleanup_count_deviceRelease (g : Globals) :
    countEv Event.cleanupDeviceRelease (CleanupAll g).2 =
      if g.gJoystick then 1 else 0 := by
  unfold CleanupAll
  split <;> split <;> split <;> simp_all [countEv]

theorem cleanup_count_contextRelease (g : Globals) :
    countEv Event.cleanupContextRelease (CleanupAll g).2 =
      if g.gDI then 1 else 0 := by
  unfold CleanupAll
  split <;> split <;> split <;> simp_all [countEv]

theorem cleanup_createdEffects (g : Globals) :
    createdEffects (CleanupAll g).2 = [] := by
  unfold CleanupAll
  split <;> split <;> split <;> simp [createdEffects, createInfo]

theorem cleanup_complete_mem (g : Globals) :
    Event.cleanupComplete ∈ (CleanupAll g).2 := by
  unfold CleanupAll
  split <;> split <;> split <;> simp

theorem cleanup_no_effectRelease_of_none (g : Globals) (h : g.gEffect = none) :
    Event.cleanupEffectRelease ∉ (CleanupAll g).2 := by
  unfold CleanupAll
  simp [h]

/-! ### Invariants of the polling loop, by induction on the tick sequence -/

theorem oscLoop_all_loopEvent (si mult endTime : Nat) (cOk sOk : List Bool) :
    ∀ (ticks : List Nat) (st : OscSt),
      (oscLoop si mult endTime cOk sOk ticks st).events.all isLoopEvent = true := by
  intro ticks
  induction ticks with
  | nil => intro st; rfl
  | cons t ts ih =>
    intro st
    simp only [oscLoop]
    split
    · split
      · split
        · simp [List.all_append, relEvents_all_loop, startEvents_all_loop, ih, isLoopEvent]
        · simp [List.all_append, relEvents_all_loop, isLoopEvent]
      · exact ih st
    · rfl

theorem noDoubleCreate_startEvents (b : Bool) (sOk : List Bool) (n : Nat) (l : List Event) :
    noDoubleCreate b (startEvents sOk n ++ l) = noDoubleCreate b l := by
  unfold startEvents; split <;> simp [noDoubleCreate]

theorem oscLoop_aborted_shape (si mult endTime : Nat) (cOk sOk : List Bool) :
    ∀ (ticks : List Nat) (st : OscSt),
      ((oscLoop si mult endTime cOk sOk ticks st).aborted = true →
        ∃ pre, (oscLoop si mult endTime cOk sOk ticks st).events = pre ++ [Event.createFailed] ∧
          Event.createFailed ∉ pre ∧
          (oscLoop si mult endTime cOk sOk ticks st).st.gEffect = none) ∧
      ((oscLoop si mult endTime cOk sOk ticks st).aborted = false →
        Event.createFailed ∉ (oscLoop si mult endTime cOk sOk ticks st).events) := by
  intro ticks
  induction ticks with
  | nil =>
    intro st
    constructor
    · intro h; simp [oscLoop] at h
    · intro _ h; simp [oscLoop] at h
  | cons t ts ih =>
    intro st
    simp only [oscLoop]
    split
    · split
      · split
        · constructor
          · intro hab
            obtain ⟨pre, hev, hpre, hge⟩ := (ih _).1 hab
            refine ⟨relEvents st ++ Event.effectCreate (t % dword)
              (mkEffect si mult (-st.direction)) :: (startEvents sOk st.nSw ++ pre), ?_, ?_, hge⟩
            · simp [hev]
            · simp [hpre, cf_not_mem_relEvents, cf_not_mem_startEvents]
          · intro hab
            have h2 := (ih _).2 hab
            simp [h2, cf_not_mem_relEvents, cf_not_mem_startEvents]
        · constructor
          · intro _
            exact ⟨relEvents st, rfl, cf_not_mem_relEvents st, rfl⟩
          · intro h; cases h
      · exact ih st
    · constructor
      · intro h; simp at h
      · intro _ h; simp at h

theorem oscLoop_noDouble (si mult endTime : Nat) (cOk sOk : List Bool) :
    ∀ (ticks : List Nat) (st : OscSt),
      noDoubleCreate st.gEffect.isSome (oscLoop si mult endTime cOk sOk ticks st).events = true := by
  intro ticks
  induction ticks with
  | nil => intro st; rfl
  | cons t ts ih =>
    intro st
    simp only [oscLoop]
    split
    · split
      · split
        · cases hg : st.gEffect with
          | none =>
            have := ih ⟨some (mkEffect si mult (-st.direction)), -st.direction, t % dword, st.nSw + 1⟩
            simp [relEvents, hg, noDoubleCreate, noDoubleCreate_startEvents] at this ⊢
            exact this
          | some q =>
            have := ih ⟨some (mkEffect si mult (-st.direction)), -st.direction, t % dword, st.nSw + 1⟩
            simp [relEvents, hg, noDoubleCreate, noDoubleCreate_startEvents] at this ⊢
            exact this
        · cases hg : st.gEffect <;>
            simp [relEvents, hg, noDoubleCreate]
      · exact ih st
    · rfl

theorem createdEffects_cons_create (t : Nat) (p : DIEffectParams) (l : List Event) :
    createdEffects (Event.effectCreate t p :: l) = (t, p) :: createdEffects l := rfl

theorem createdEffects_cf : createdEffects [Event.createFailed] = [] := rfl

theorem oscLoop_creates_shape (si mult endTime : Nat) (cOk sOk : List Bool) :
    ∀ (ticks : List Nat) (st : OscSt),
      ∀ x ∈ createdEffects (oscLoop si mult endTime cOk sOk ticks st).events,
        ∃ d, x.2 = mkEffect si mult d := by
  intro ticks
  induction ticks with
  | nil => intro st x hx; cases hx
  | cons t ts ih =>
    intro st
    simp only [oscLoop]
    split
    · split
      · split
        · intro x hx
          rw [createdEffects_append, createdEffects_relEvents, createdEffects_cons_create,
            createdEffects_append, createdEffects_startEvents] at hx
          simp only [List.nil_append, List.mem_cons] at hx
          rcases hx with hx | hx
          · exact ⟨-st.direction, by simp [hx]⟩
          · exact ih _ x hx
        · intro x hx
          rw [createdEffects_append, createdEffects_relEvents, createdEffects_cf] at hx
          cases hx
      · exact ih st
    · intro x hx; cases hx

theorem oscLoop_alternating (si mult endTime : Nat) (cOk sOk : List Bool) :
    ∀ (ticks : List Nat) (st : OscSt),
      alternatingFrom (-st.direction)
        ((createdEffects (oscLoop si mult endTime cOk sOk ticks st).events).map
          (fun x => x.2.direction)) = true := by
  intro ticks
  induction ticks with
  | nil => intro st; rfl
  | cons t ts ih =>
    intro st
    simp only [oscLoop]
    split
    · split
      · split
        · rw [createdEffects_append, createdEffects_relEvents, createdEffects_cons_create,
            createdEffects_append, createdEffects_startEvents]
          simp only [List.nil_append, List.map_cons]
          have hih : alternatingFrom st.direction
              ((createdEffects (oscLoop si mult endTime cOk sOk ts
                ⟨some (mkEffect si mult (-st.direction)), -st.direction, t % dword,
                  st.nSw + 1⟩).events).map (fun x => x.2.direction)) = true := by
            simpa using ih ⟨some (mkEffect si mult (-st.direction)), -st.direction, t % dword, st.nSw + 1⟩
          simp only [alternatingFrom, mkEffect]
          simpa using hih
        · rw [createdEffects_append, createdEffects_relEvents, createdEffects_cf]
          rfl
      · exact ih st
    · rfl

theorem oscLoop_spaced (si mult endTime : Nat) (cOk sOk : List Bool) :
    ∀ (ticks : List Nat) (st : OscSt),
      spacedBy si st.lastSwitch
        ((createdEffects (oscLoop si mult endTime cOk sOk ticks st).events).map Prod.fst) = true := by
  intro ticks
  induction ticks with
  | nil => intro st; rfl
  | cons t ts ih =>
    intro st
    simp only [oscLoop]
    split
    · split
      · split
        · rw [createdEffects_append, createdEffects_relEvents, createdEffects_cons_create,
            createdEffects_append, createdEffects_startEvents]
          simp only [List.nil_append, List.map_cons]
          have hih := ih ⟨some (mkEffect si mult (-st.direction)), -st.direction, t % dword, st.nSw + 1⟩
          simp only [spacedBy]
          simp only [hih, Bool.and_true]
          next hsw _ => simp [hsw]
        · rw [createdEffects_append, createdEffects_relEvents, createdEffects_cf]
          rfl
      · exact ih st
    · rfl

theorem oscLoop_startOk_irrel (si mult endTime : Nat) (cOk sOk1 sOk2 : List Bool) :
    ∀ (ticks : List Nat) (st : OscSt),
      (oscLoop si mult endTime cOk sOk1 ticks st).st =
        (oscLoop si mult endTime cOk sOk2 ticks st).st ∧
      (oscLoop si mult endTime cOk sOk1 ticks st).aborted =
        (oscLoop si mult endTime cOk sOk2 ticks st).aborted ∧
      eraseStartEvents (oscLoop si mult endTime cOk sOk1 ticks st).events =
        eraseStartEvents (oscLoop si mult endTime cOk sOk2 ticks st).events := by
  intro ticks
  induction ticks with
  | nil => intro st; exact ⟨rfl, rfl, rfl⟩
  | cons t ts ih =>
    intro st
    by_cases h1 : t % dword < endTime
    · by_cases h2 : dwordSub (t % dword) st.lastSwitch > si
      · by_cases h3 : cOk.getD st.nSw true = true
        · have hih := ih ⟨some (mkEffect si mult (-st.direction)), -st.direction, t % dword, st.nSw + 1⟩
          simp only [oscLoop, h1, h2, h3, if_true, if_pos]
          refine ⟨hih.1, hih.2.1, ?_⟩
          simp only [eraseStartEvents_append, eraseStartEvents_relEvents, eraseStartEvents,
            eraseStartEvents_startEvents]
          simp [hih.2.2]
        · simp only [oscLoop, h1, h2, h3, if_pos, if_neg, if_false]
          exact ⟨rfl, rfl, rfl⟩
      · simp only [oscLoop, h1, h2, if_pos, if_neg]
        exact ih st
    · simp only [oscLoop, h1, if_neg]
      exact ⟨rfl, rfl, rfl⟩

/-! ### Lifting the loop invariants to `ApplyGentleOscillation` -/

theorem ApplyGentleOscillation_eq (ft : Int) (s : Nat) (ticks : List Nat)
    (cOk sOk : List Bool) (gIn : Option DIEffectParams) :
    ApplyGentleOscillation ft s ticks cOk sOk gIn =
      (if (oscLoop (oscParamsFor ft).1 (oscParamsFor ft).2 ((s % dword + 300) % dword)
            cOk sOk ticks ⟨gIn, 1, s % dword, 0⟩).aborted then
        ⟨(oscLoop (oscParamsFor ft).1 (oscParamsFor ft).2 ((s % dword + 300) % dword)
            cOk sOk ticks ⟨gIn, 1, s % dword, 0⟩).events,
          (oscLoop (oscParamsFor ft).1 (oscParamsFor ft).2 ((s % dword + 300) % dword)
            cOk sOk ticks ⟨gIn, 1, s % dword, 0⟩).st.gEffect⟩
      else if (oscLoop (oscParamsFor ft).1 (oscParamsFor ft).2 ((s % dword + 300) % dword)
            cOk sOk ticks ⟨gIn, 1, s % dword, 0⟩).st.gEffect.isSome then
        ⟨(oscLoop (oscParamsFor ft).1 (oscParamsFor ft).2 ((s % dword + 300) % dword)
            cOk sOk ticks ⟨gIn, 1, s % dword, 0⟩).events ++ [Event.effectStop],
          (oscLoop (oscParamsFor ft).1 (oscParamsFor ft).2 ((s % dword + 300) % dword)
            cOk sOk ticks ⟨gIn, 1, s % dword, 0⟩).st.gEffect⟩
      else
        ⟨(oscLoop (oscParamsFor ft).1 (oscParamsFor ft).2 ((s % dword + 300) % dword)
            cOk sOk ticks ⟨gIn, 1, s % dword, 0⟩).events,
          (oscLoop (oscParamsFor ft).1 (oscParamsFor ft).2 ((s % dword + 300) % dword)
            cOk sOk ticks ⟨gIn, 1, s % dword, 0⟩).st.gEffect⟩) := rfl

theorem osc_events_all (ft : Int) (s : Nat) (ticks : List Nat) (cOk sOk : List Bool)
    (gIn : Option DIEffectParams) :
    (ApplyGentleOscillation ft s ticks cOk sOk gIn).events.all
      (fun e => isLoopEvent e || e == Event.effectStop) = true := by
  have h := oscLoop_all_loopEvent (oscParamsFor ft).1 (oscParamsFor ft).2
    ((s % dword + 300) % dword) cOk sOk ticks ⟨gIn, 1, s % dword, 0⟩
  rw [List.all_eq_true] at h
  rw [ApplyGentleOscillation_eq]
  split
  · rw [List.all_eq_true]
    intro e he
    simp [h e he]
  · split
    · rw [List.all_eq_true]
      intro e he
      rw [List.mem_append] at he
      rcases he with he | he
      · simp [h e he]
      · simp only [List.mem_singleton] at he
        simp [he]
    · rw [List.all_eq_true]
      intro e he
      simp [h e he]

theorem osc_cf_shape (ft : Int) (s : Nat) (ticks : List Nat) (cOk sOk : List Bool)
    (gIn : Option DIEffectParams)
    (h : Event.createFailed ∈ (ApplyGentleOscillation ft s ticks cOk sOk gIn).events) :
    ∃ pre, (ApplyGentleOscillation ft s ticks cOk sOk gIn).events = pre ++ [Event.createFailed] ∧
      Event.createFailed ∉ pre ∧
      (ApplyGentleOscillation ft s ticks cOk sOk gIn).gEffect = none ∧
      Event.effectStop ∉ (ApplyGentleOscillation ft s ticks cOk sOk gIn).events := by
  have hsh := oscLoop_aborted_shape (oscParamsFor ft).1 (oscParamsFor ft).2
    ((s % dword + 300) % dword) cOk sOk ticks ⟨gIn, 1, s % dword, 0⟩
  have hloop := oscLoop_all_loopEvent (oscParamsFor ft).1 (oscParamsFor ft).2
    ((s % dword + 300) % dword) cOk sOk ticks ⟨gIn, 1, s % dword, 0⟩
  rw [List.all_eq_true] at hloop
  rw [ApplyGentleOscillation_eq] at h ⊢
  revert h
  split
  · next hab =>
    intro _
    obtain ⟨pre, hev, hpre, hge⟩ := hsh.1 hab
    refine ⟨pre, hev, hpre, hge, ?_⟩
    intro hstop
    have := hloop _ hstop
    simp [isLoopEvent] at this
  · next hab =>
    rw [Bool.not_eq_true] at hab
    have hnf := hsh.2 hab
    split
    · intro h
      rw [List.mem_append] at h
      rcases h with h | h
      · exact absurd h hnf
      · simp at h
    · intro h
      exact absurd h hnf

theorem not_mem_of_all {p : Event → Bool} {l : List Event} (h : l.all p = true)
    {e : Event} (he : p e = false) : e ∉ l := by
  intro hm
  rw [List.all_eq_true] at h
  have := h e hm
  rw [he] at this
  cases this

theorem createdEffects_stop : createdEffects [Event.effectStop] = [] := rfl

theorem osc_createdEffects (ft : Int) (s : Nat) (ticks : List Nat) (cOk sOk : List Bool)
    (gIn : Option DIEffectParams) :
    createdEffects (ApplyGentleOscillation ft s ticks cOk sOk gIn).events =
      createdEffects (oscLoop (oscParamsFor ft).1 (oscParamsFor ft).2
        ((s % dword + 300) % dword) cOk sOk ticks ⟨gIn, 1, s % dword, 0⟩).events := by
  rw [ApplyGentleOscillation_eq]
  split
  · rfl
  · split
    · rw [createdEffects_append, createdEffects_stop, List.append_nil]
    · rfl

theorem osc_creates_shape (ft : Int) (s : Nat) (ticks : List Nat) (cOk sOk : List Bool)
    (gIn : Option DIEffectParams) :
    ∀ x ∈ createdEffects (ApplyGentleOscillation ft s ticks cOk sOk gIn).events,
      ∃ d, x.2 = mkEffect (oscParamsFor ft).1 (oscParamsFor ft).2 d := by
  rw [osc_createdEffects]
  exact oscLoop_creates_shape _ _ _ _ _ _ _

theorem osc_alternating (ft : Int) (s : Nat) (ticks : List Nat) (cOk sOk : List Bool)
    (gIn : Option DIEffectParams) :
    alternatingFrom (-1)
      ((createdEffects (ApplyGentleOscillation ft s ticks cOk sOk gIn).events).map
        (fun x => x.2.direction)) = true := by
  rw [osc_createdEffects]
  simpa using oscLoop_alternating (oscParamsFor ft).1 (oscParamsFor ft).2
    ((s % dword + 300) % dword) cOk sOk ticks ⟨gIn, 1, s % dword, 0⟩

theorem osc_spaced (ft : Int) (s : Nat) (ticks : List Nat) (cOk sOk : List Bool)
    (gIn : Option DIEffectParams) :
    spacedBy (oscParamsFor ft).1 (s % dword)
      ((createdEffects (ApplyGentleOscillation ft s ticks cOk sOk gIn).events).map
        Prod.fst) = true := by
  rw [osc_createdEffects]
  simpa using oscLoop_spaced (oscParamsFor ft).1 (oscParamsFor ft).2
    ((s % dword + 300) % dword) cOk sOk ticks ⟨gIn, 1, s % dword, 0⟩

theorem eraseStartEvents_stop : eraseStartEvents [Event.effectStop] = [Event.effectStop] := rfl

theorem osc_startOk_irrel (ft : Int) (s : Nat) (ticks : List Nat) (cOk sOk1 sOk2 : List Bool)
    (gIn : Option DIEffectParams) :
    (ApplyGentleOscillation ft s ticks cOk sOk1 gIn).gEffect =
      (ApplyGentleOscillation ft s ticks cOk sOk2 gIn).gEffect ∧
    eraseStartEvents (ApplyGentleOscillation ft s ticks cOk sOk1 gIn).events =
      eraseStartEvents (ApplyGentleOscillation ft s ticks cOk sOk2 gIn).events := by
  have h := oscLoop_startOk_irrel (oscParamsFor ft).1 (oscParamsFor ft).2
    ((s % dword + 300) % dword) cOk sOk1 sOk2 ticks ⟨gIn, 1, s % dword, 0⟩
  rw [ApplyGentleOscillation_eq, ApplyGentleOscillation_eq]
  rw [← h.1, ← h.2.1]
  split
  · exact ⟨rfl, h.2.2⟩
  · split
    · refine ⟨rfl, ?_⟩
      rw [eraseStartEvents_append, eraseStartEvents_append, eraseStartEvents_stop, h.2.2]
    · exact ⟨rfl, h.2.2⟩

/-! ### Unfolding `mainRun` into its four exit paths -/

/-- The `InitializeDirectInput` call of a run, on the initial globals. -/
def initResult (env : MainEnv) : Bool × Globals :=
  InitializeDirectInput env.init initGlobals

/-- The `ApplyGentleOscillation` call of a run. -/
def oscOf (env : MainEnv) : OscOut :=
  ApplyGentleOscillation (resolveCategory env.argvArg) env.startTime env.ticks
    env.createOk env.startOk (initResult env).2.gEffect

theorem mainRun_eq (env : MainEnv) :
    mainRun env =
      if env.coInitOk then
        if (initResult env).1 then
          if resolveCategory env.argvArg = 0 then
            ⟨0, Event.printNoFeedback :: (CleanupAll (initResult env).2).2,
              (CleanupAll (initResult env).2).1⟩
          else
            ⟨0, (oscOf env).events ++
                (CleanupAll { (initResult env).2 with gEffect := (oscOf env).gEffect }).2,
              (CleanupAll { (initResult env).2 with gEffect := (oscOf env).gEffect }).1⟩
        else ⟨1, (CleanupAll (initResult env).2).2, (CleanupAll (initResult env).2).1⟩
      else ⟨1, [], initGlobals⟩ := rfl

/-! ### The claims -/

/-- Claim C9: CleanupAll is idempotent and safe on a partially-initialized
session. It releases only the non-null handles (one release of the
effect, the device, the context exactly when the corresponding handle is
non-null), sets all internal references to null, and a second call
performs no further releases and leaves the same all-null state. -/
theorem c9_cleanup_idempotent (g : Globals) :
    (CleanupAll g).1 = initGlobals ∧
    countEv Event.cleanupEffectRelease (CleanupAll g).2 = (if g.gEffect.isSome then 1 else 0) ∧
    countEv Event.cleanupDeviceRelease (CleanupAll g).2 = (if g.gJoystick then 1 else 0) ∧
    countEv Event.cleanupContextRelease (CleanupAll g).2 = (if g.gDI then 1 else 0) ∧
    CleanupAll (CleanupAll g).1 = (initGlobals, [Event.cleanupComplete]) :=
  ⟨cleanup_globals g, cleanup_count_effectRelease g, cleanup_count_deviceRelease g,
    cleanup_count_contextRelease g, rfl⟩

/-- A run in which CoInitialize fails. -/
def envC1 : MainEnv := ⟨some 1, false, ⟨true, true, [true], true, true, true⟩, 0, [30], [], []⟩

/-- Claim C1 counterexample: on the COM initialization failure exit path
the program returns 1 without ever calling CleanupAll, so cleanup does
not run exactly once on every exit path. -/
theorem c1_counterexample :
    envC1.coInitOk = false ∧ countEv Event.cleanupComplete (mainRun envC1).events = 0 := by
  decide

/-- Claim C1 (amended): CleanupAll runs exactly once before the process
returns on every exit path except COM initialization failure, where main
returns 1 directly without calling it (all three handles are still null
there, so nothing is leaked); on every path the final state of the three
handles is null. -/
theorem c1_cleanup_exactly_once (env : MainEnv) :
    countEv Event.cleanupComplete (mainRun env).events = (if env.coInitOk then 1 else 0) ∧
    (mainRun env).globals = initGlobals := by
  rw [mainRun_eq]
  split
  · next hco =>
    split
    · split
      · exact ⟨by simp [hco, countEv, cleanup_count_complete], rfl⟩
      · have hnm : Event.cleanupComplete ∉ (oscOf env).events :=
          not_mem_of_all (osc_events_all (resolveCategory env.argvArg) env.startTime env.ticks
            env.createOk env.startOk (initResult env).2.gEffect) (by decide)
        refine ⟨?_, rfl⟩
        rw [countEv_append, countEv_eq_zero _ _ hnm, cleanup_count_complete]
    · exact ⟨by simp [hco, cleanup_count_complete], rfl⟩
  · next hco =>
    rw [Bool.not_eq_true] at hco
    exact ⟨by simp [hco, countEv], rfl⟩

/-- A run in which everything up to and including device discovery
succeeds but SetCooperativeLevel fails. -/
def envC2 : MainEnv := ⟨some 1, true, ⟨true, true, [true], false, true, true⟩, 0, [], [], []⟩

/-- Claim C2 counterexample: a run where COM initialization, DirectInput
context creation and device discovery all succeed but setting the
cooperative level fails still exits with code 1 — so a failure other
than context initialization or device discovery also yields exit
code 1. -/
theorem c2_counterexample :
    envC2.coInitOk = true ∧ envC2.init.diCreateOk = true ∧ envC2.init.enumCallOk = true ∧
    envC2.init.devices.contains true = true ∧ (mainRun envC2).exitCode = 1 := by
  decide

/-- Claim C2 (amended): the exit code is 0 exactly when CoInitialize and
every step of InitializeDirectInput succeed (any completed run,
including the no-feedback path and mid-loop effect failures); it is 1
when COM initialization fails or when any InitializeDirectInput step
fails — context creation, device discovery, and also cooperative level,
data format, or acquire. -/
theorem c2_exit_code (env : MainEnv) :
    (mainRun env).exitCode = if env.coInitOk && (initResult env).1 then 0 else 1 := by
  rw [mainRun_eq]
  split
  · next hco =>
    split
    · next hinit =>
      split
      · simp [hco, hinit]
      · simp [hco, hinit]
    · next hinit =>
      rw [Bool.not_eq_true] at hinit
      simp [hco, hinit]
  · next hco =>
    rw [Bool.not_eq_true] at hco
    simp [hco]

/-- Claim C3: throughout the oscillation loop at most one live Effect
Instance exists at any time. Replaying the trace of
`ApplyGentleOscillation` from any initial effect handle, no creation
ever occurs while an instance is live: every creation is preceded by the
release (and nulling) of any previously active instance. -/
theorem c3_single_live_effect (ft : Int) (s : Nat) (ticks : List Nat) (cOk sOk : List Bool)
    (gIn : Option DIEffectParams) :
    noDoubleCreate gIn.isSome (ApplyGentleOscillation ft s ticks cOk sOk gIn).events = true := by
  have h := oscLoop_noDouble (oscParamsFor ft).1 (oscParamsFor ft).2
    ((s % dword + 300) % dword) cOk sOk ticks ⟨gIn, 1, s % dword, 0⟩
  rw [ApplyGentleOscillation_eq]
  split
  · exact h
  · split
    · rw [noDoubleCreate_append_stop]; exact h
    · exact h

theorem oscParamsFor_one : oscParamsFor 1 = (25, 1) := rfl

theorem oscParamsFor_two : oscParamsFor 2 = (25, 1) := rfl

/-- An OBSTACLE run with switches at ticks 30, 60 and 90. -/
def envC4 : MainEnv := ⟨some 1, true, ⟨true, true, [true], true, true, true⟩, 0, [30, 60, 90], [], []⟩

/-- Claim C4 counterexample: in an OBSTACLE run the directions submitted
to the device are -1, 1, -1, ...: the direction variable starts at +1
but is negated before the first submission, so the submitted sign
sequence starts from -1, not +1. -/
theorem c4_counterexample :
    resolveCategory envC4.argvArg = 1 ∧
    ((createdEffects (mainRun envC4).events).map (fun x => x.2.direction)) = [-1, 1, -1] := by
  decide

/-- Claim C4 (amended): for OBSTACLE and MOVEMENT the direction sign
submitted to the device strictly alternates on every switch, but
starting from -1 (the initial +1 is negated before the first
submission); consecutive submissions are separated by more than the
25 ms switch interval, the switch firing at the first poll at which more
than 25 ms have elapsed since the previous one; and force is applied
along the x-axis only: the y-axis direction component of every submitted
effect is zero. -/
theorem c4_direction_pattern (env : MainEnv)
    (h : resolveCategory env.argvArg = 1 ∨ resolveCategory env.argvArg = 2) :
    alternatingFrom (-1)
      ((createdEffects (mainRun env).events).map (fun x => x.2.direction)) = true ∧
    (createdEffects (mainRun env).events).all (fun x => x.2.dirY == 0) = true ∧
    spacedBy 25 (env.startTime % dword)
      ((createdEffects (mainRun env).events).map Prod.fst) = true := by
  rw [mainRun_eq]
  split
  · split
    · split
      · next h0 =>
        rw [h0] at h
        rcases h with h | h <;> cases h
      · have hce : createdEffects ((oscOf env).events ++
            (CleanupAll { (initResult env).2 with gEffect := (oscOf env).gEffect }).2) =
            createdEffects (oscOf env).events := by
          rw [createdEffects_append, cleanup_createdEffects, List.append_nil]
        refine ⟨?_, ?_, ?_⟩
        · show alternatingFrom (-1) ((createdEffects ((oscOf env).events ++ _)).map _) = true
          rw [hce]
          exact osc_alternating (resolveCategory env.argvArg) env.startTime env.ticks
            env.createOk env.startOk (initResult env).2.gEffect
        · show ((createdEffects ((oscOf env).events ++ _)).all _) = true
          rw [hce, List.all_eq_true]
          intro x hx
          obtain ⟨d, hd⟩ := osc_creates_shape (resolveCategory env.argvArg) env.startTime
            env.ticks env.createOk env.startOk (initResult env).2.gEffect x hx
          simp [hd, mkEffect]
        · show spacedBy 25 (env.startTime % dword)
            ((createdEffects ((oscOf env).events ++ _)).map Prod.fst) = true
          rw [hce]
          simp only [oscOf]
          rcases h with h | h
          · rw [h]
            have hs := osc_spaced 1 env.startTime env.ticks env.createOk env.startOk
              (initResult env).2.gEffect
            rw [oscParamsFor_one] at hs
            exact hs
          · rw [h]
            have hs := osc_spaced 2 env.startTime env.ticks env.createOk env.startOk
              (initResult env).2.gEffect
            rw [oscParamsFor_two] at hs
            exact hs
    · exact ⟨by rw [cleanup_createdEffects]; rfl, by rw [cleanup_createdEffects]; rfl,
        by rw [cleanup_createdEffects]; rfl⟩
  · exact ⟨rfl, rfl, rfl⟩

/-- A MOVEMENT run with switches at ticks 30 and 60. -/
def envC4w : MainEnv := ⟨some 2, true, ⟨true, true, [true], true, true, true⟩, 0, [30, 60], [], []⟩

theorem c4_witness :
    alternatingFrom (-1)
      ((createdEffects (mainRun envC4w).events).map (fun x => x.2.direction)) = true ∧
    (createdEffects (mainRun envC4w).events).all (fun x => x.2.dirY == 0) = true ∧
    spacedBy 25 (envC4w.startTime % dword)
      ((createdEffects (mainRun envC4w).events).map Prod.fst) = true :=
  c4_direction_pattern envC4w (Or.inr (by decide))

theorem isCleanup_not_loop {e : Event} (h : isCleanupEvent e = true) : isLoopEvent e = false := by
  cases e <;> simp_all [isCleanupEvent, isLoopEvent]

/-- An OBSTACLE run whose first effect creation fails. -/
def envC5 : MainEnv := ⟨some 1, true, ⟨true, true, [true], true, true, true⟩, 0, [30], [false], []⟩

/-- Claim C5: if effect construction fails during the loop, the loop
aborts immediately without retrying — the creation failure is reported
and after it the trace holds only the cleanup events (no further
creation, start or stop), cleanup still runs to completion, and the
process exits with code 0. -/
theorem c5_create_fail_aborts (env : MainEnv)
    (h : Event.createFailed ∈ (mainRun env).events) :
    (mainRun env).exitCode = 0 ∧
    (afterCreateFailed (mainRun env).events).all isCleanupEvent = true ∧
    Event.cleanupComplete ∈ afterCreateFailed (mainRun env).events := by
  rw [mainRun_eq] at h ⊢
  revert h
  split
  · split
    · split
      · intro h
        simp only [List.mem_cons] at h
        rcases h with h | h
        · cases h
        · exact absurd h (not_mem_of_all (cleanup_all_cleanupEvent _) (by decide))
      · intro h
        rw [List.mem_append] at h
        rcases h with h | h
        · obtain ⟨pre, hev, hpre, hge, hstop⟩ := osc_cf_shape (resolveCategory env.argvArg)
            env.startTime env.ticks env.createOk env.startOk (initResult env).2.gEffect h
          have hev' : (oscOf env).events = pre ++ [Event.createFailed] := hev
          refine ⟨rfl, ?_, ?_⟩
          · rw [hev', List.append_assoc, List.singleton_append,
              afterCreateFailed_append _ _ hpre]
            exact cleanup_all_cleanupEvent _
          · rw [hev', List.append_assoc, List.singleton_append,
              afterCreateFailed_append _ _ hpre]
            exact cleanup_complete_mem _
        · exact absurd h (not_mem_of_all (cleanup_all_cleanupEvent _) (by decide))
    · intro h
      exact absurd h (not_mem_of_all (cleanup_all_cleanupEvent _) (by decide))
  · intro h
    cases h

theorem c5_witness :
    (mainRun envC5).exitCode = 0 ∧
    (afterCreateFailed (mainRun envC5).events).all isCleanupEvent = true ∧
    Event.cleanupComplete ∈ afterCreateFailed (mainRun envC5).events :=
  c5_create_fail_aborts envC5 (by decide)

/-- An OBSTACLE run whose first effect is created and started and whose
second creation fails. -/
def envC10 : MainEnv := ⟨some 1, true, ⟨true, true, [true], true, true, true⟩, 0, [30, 60], [true, false], []⟩

/-- Claim C10: after an effect-creation failure aborts the loop, the
global effect handle is null (the prior instance was released and nulled
just before the failing creation), so neither the post-loop stop nor the
effect release of CleanupAll fires on this path — the trace holds no
effect stop and no cleanup effect release, and the last successfully
started effect is never explicitly stopped. -/
theorem c10_no_stop_after_create_fail (env : MainEnv)
    (h : Event.createFailed ∈ (mainRun env).events) :
    Event.effectStop ∉ (mainRun env).events ∧
    Event.cleanupEffectRelease ∉ (mainRun env).events := by
  rw [mainRun_eq] at h ⊢
  revert h
  split
  · split
    · split
      · intro h
        simp only [List.mem_cons] at h
        rcases h with h | h
        · cases h
        · exact absurd h (not_mem_of_all (cleanup_all_cleanupEvent _) (by decide))
      · intro h
        rw [List.mem_append] at h
        rcases h with h | h
        · obtain ⟨pre, hev, hpre, hge, hstop⟩ := osc_cf_shape (resolveCategory env.argvArg)
            env.startTime env.ticks env.createOk env.startOk (initResult env).2.gEffect h
          have hge' : (oscOf env).gEffect = none := hge
          have hstop' : Event.effectStop ∉ (oscOf env).events := hstop
          constructor
          · rw [List.mem_append]
            rintro (hm | hm)
            · exact hstop' hm
            · exact not_mem_of_all (cleanup_all_cleanupEvent _) (by decide) hm
          · rw [List.mem_append]
            rintro (hm | hm)
            · exact not_mem_of_all (osc_events_all (resolveCategory env.argvArg)
                env.startTime env.ticks env.createOk env.startOk
                (initResult env).2.gEffect) (by decide) hm
            · exact cleanup_no_effectRelease_of_none _ (by simp [hge']) hm
        · exact absurd h (not_mem_of_all (cleanup_all_cleanupEvent _) (by decide))
    · intro h
      exact absurd h (not_mem_of_all (cleanup_all_cleanupEvent _) (by decide))
  · intro h
    cases h

theorem c10_witness :
    Event.effectStop ∉ (mainRun envC10).events ∧
    Event.cleanupEffectRelease ∉ (mainRun envC10).events :=
  c10_no_stop_after_create_fail envC10 (by decide)

theorem createdEffects_cons_print (l : List Event) :
    createdEffects (Event.printNoFeedback :: l) = createdEffects l := rfl

/-- Claim C6: the oscillation controller derives its parameters from the
category by a fixed lookup — OBSTACLE (1) maps to switch interval 25 ms
with strength multiplier 1.0, MOVEMENT (2) to the same, and any other
category to (0, 0) — and every submitted effect carries a duration equal
to the current switch interval in milliseconds times 1000, in
microseconds. -/
theorem c6_param_table (env : MainEnv) (c : Int) (h1 : c ≠ 1) (h2 : c ≠ 2) :
    oscParamsFor 1 = (25, 1) ∧ oscParamsFor 2 = (25, 1) ∧ oscParamsFor c = (0, 0) ∧
    ∀ x ∈ createdEffects (mainRun env).events,
      x.2.duration_us = (oscParamsFor (resolveCategory env.argvArg)).1 * 1000 := by
  refine ⟨rfl, rfl, by simp [oscParamsFor, h1, h2], ?_⟩
  rw [mainRun_eq]
  split
  · split
    · split
      · intro x hx
        rw [createdEffects_cons_print, cleanup_createdEffects] at hx
        cases hx
      · intro x hx
        rw [createdEffects_append, cleanup_createdEffects, List.append_nil] at hx
        obtain ⟨d, hd⟩ := osc_creates_shape (resolveCategory env.argvArg) env.startTime
          env.ticks env.createOk env.startOk (initResult env).2.gEffect x hx
        simp [hd, mkEffect]
    · intro x hx
      rw [cleanup_createdEffects] at hx
      cases hx
  · intro x hx
    cases hx

/-- An OBSTACLE run with two effect submissions. -/
def envC6 : MainEnv := ⟨some 1, true, ⟨true, true, [true], true, true, true⟩, 0, [30, 60], [], []⟩

theorem c6_witness :
    oscParamsFor 1 = (25, 1) ∧ oscParamsFor 2 = (25, 1) ∧ oscParamsFor 5 = (0, 0) ∧
    ∀ x ∈ createdEffects (mainRun envC6).events,
      x.2.duration_us = (oscParamsFor (resolveCategory envC6.argvArg)).1 * 1000 :=
  c6_param_table envC6 5 (by decide) (by decide)

/-- A run with the out-of-range argument 7. -/
def envC7 : MainEnv := ⟨some 7, true, ⟨true, true, [true], true, true, true⟩, 0, [30], [], []⟩

/-- Claim C7: for every invalid or missing command-line category input
(no argument, or an integer outside 0..2) the resolved category is NONE
(0), the oscillation loop is never entered — the trace holds no loop
event and no effect is ever created — and whenever control reaches the
feedback dispatch (COM and DirectInput initialization succeeded) the
"No feedback requested" path is taken. -/
theorem c7_invalid_input (env : MainEnv) (h : invalidArg env.argvArg = true) :
    resolveCategory env.argvArg = 0 ∧
    createdEffects (mainRun env).events = [] ∧
    (mainRun env).events.all (fun e => !isLoopEvent e) = true ∧
    (env.coInitOk = true → (initResult env).1 = true →
      Event.printNoFeedback ∈ (mainRun env).events) := by
  have hres : resolveCategory env.argvArg = 0 := by
    cases ha : env.argvArg with
    | none => rfl
    | some n =>
      rw [ha] at h
      simp only [invalidArg, Bool.or_eq_true, decide_eq_true_eq] at h
      simp only [resolveCategory]
      rcases h with h | h
      · rw [if_pos (Or.inl h)]
      · rw [if_pos (Or.inr h)]
  have hclean : ∀ g : Globals, ((CleanupAll g).2.all fun e => !isLoopEvent e) = true := by
    intro g
    rw [List.all_eq_true]
    intro e he
    have := List.all_eq_true.mp (cleanup_all_cleanupEvent g) e he
    simp [isCleanup_not_loop this]
  refine ⟨hres, ?_, ?_, ?_⟩ <;> rw [mainRun_eq]
  · split
    · split
      · show createdEffects (Event.printNoFeedback :: (CleanupAll (initResult env).2).2) = []
        rw [createdEffects_cons_print, cleanup_createdEffects]
      · show createdEffects (CleanupAll (initResult env).2).2 = []
        rw [cleanup_createdEffects]
    · rfl
  · split
    · split
      · show (Event.printNoFeedback ::
            (CleanupAll (initResult env).2).2).all (fun e => !isLoopEvent e) = true
        rw [List.all_cons, hclean (initResult env).2]
        rfl
      · exact hclean (initResult env).2
    · rfl
  · intro hco hinit
    rw [if_pos hco, if_pos hinit, if_pos hres]
    exact List.mem_cons_self _ _

theorem c7_witness :
    resolveCategory envC7.argvArg = 0 ∧
    createdEffects (mainRun envC7).events = [] ∧
    (mainRun envC7).events.all (fun e => !isLoopEvent e) = true ∧
    (envC7.coInitOk = true → (initResult envC7).1 = true →
      Event.printNoFeedback ∈ (mainRun envC7).events) :=
  c7_invalid_input envC7 (by decide)

/-- Claim C8: a playback-start failure on a switch is only logged and the
loop continues to its full duration: replacing the outcomes of all Start
calls in a run changes nothing but the start / start-failure log
entries — the exit code, the final globals, and the rest of the trace
(creations, releases, abort, stop, cleanup) are identical. In
particular a start failure never aborts the pattern and never changes
the exit code. -/
theorem c8_start_failure_nonfatal (env : MainEnv) (sOk : List Bool) :
    (mainRun { env with startOk := sOk }).exitCode = (mainRun env).exitCode ∧
    (mainRun { env with startOk := sOk }).globals = (mainRun env).globals ∧
    eraseStartEvents (mainRun { env with startOk := sOk }).events =
      eraseStartEvents (mainRun env).events := by
  have h4 : oscOf { env with startOk := sOk } =
      ApplyGentleOscillation (resolveCategory env.argvArg) env.startTime env.ticks
        env.createOk sOk (initResult env).2.gEffect := rfl
  have hirr := osc_startOk_irrel (resolveCategory env.argvArg) env.startTime env.ticks
    env.createOk sOk env.startOk (initResult env).2.gEffect
  have hge : (oscOf { env with startOk := sOk }).gEffect = (oscOf env).gEffect := hirr.1
  have hev : eraseStartEvents (oscOf { env with startOk := sOk }).events =
      eraseStartEvents (oscOf env).events := hirr.2
  have e1 : ({ env with startOk := sOk } : MainEnv).coInitOk = env.coInitOk := rfl
  have e2 : initResult { env with startOk := sOk } = initResult env := rfl
  have e3 : resolveCategory ({ env with startOk := sOk } : MainEnv).argvArg =
      resolveCategory env.argvArg := rfl
  rw [mainRun_eq, mainRun_eq, e1, e2, e3]
  split
  · split
    · split
      · exact ⟨rfl, rfl, rfl⟩
      · refine ⟨rfl, ?_, ?_⟩
        · show (CleanupAll { (initResult env).2 with
              gEffect := (oscOf { env with startOk := sOk }).gEffect }).1 =
            (CleanupAll { (initResult env).2 with gEffect := (oscOf env).gEffect }).1
          rw [hge]
        · show eraseStartEvents ((oscOf { env with startOk := sOk }).events ++
              (CleanupAll { (initResult env).2 with
                gEffect := (oscOf { env with startOk := sOk }).gEffect }).2) =
            eraseStartEvents ((oscOf env).events ++
              (CleanupAll { (initResult env).2 with gEffect := (oscOf env).gEffect }).2)
          rw [eraseStartEvents_append, eraseStartEvents_append, hge, hev]
    · exact ⟨rfl, rfl, rfl⟩
  · exact ⟨rfl, rfl, rfl⟩
